import Mathlib

/-!
goflux-lite: resumable chunked-upload core, verified.

A shallow embedding of the resumable chunked-upload subsystem of
goflux-lite, translated from the Go sources:

* `pkg/chunk/chunk.go`    — the chunk codec (`Chunker.Split` / `Chunker.Reassemble`);
* `pkg/resume/session.go` — the session store (`SessionStore` and its operations);
* `pkg/server/server.go`  — the upload orchestrator (`Server.handleUpload`,
  `Server.reassembleFromDisk`).

Modelling conventions:

* Byte buffers are `List Nat` (each entry a byte value); Go `int` values that
  the code compares against `0` (chunk indices, timestamps) are `Int`, counts
  that are only ever non-negative in the modelled API surface are `Nat`.
* SHA-256 and Go's `hex.EncodeToString` are implemented in full, so digests
  and session identifiers are computed exactly as the Go code computes them.
* Filesystem state (session metadata files, staged chunk files, the storage
  backend) is modelled as association lists; a successful Go file write is a
  map update, a read of a missing file is a lookup returning `none`.  JSON
  serialisation of a session record round-trips on all its fields, so a
  persisted record is modelled as the record itself.
* `time.Now()` is modelled by an explicit `now` argument.
* Console output that the code produces (`fmt.Printf` warnings, the cleanup
  count line) is modelled as an explicit component of the return value, since
  several spec sentences treat it as the observable side channel.
-/

namespace GoFlux

/-! ## SHA-256 (Go `crypto/sha256`) and hex encoding (Go `encoding/hex`) -/

/-- Truncate to a 32-bit word. -/
def w32 (x : Nat) : Nat := x % 4294967296

/-- Right-rotation of a 32-bit word by `n` bits. -/
def rotr (n x : Nat) : Nat := w32 ((x >>> n) ||| (x <<< (32 - n)))

/-- SHA-256 `Ch` function. -/
def ch (x y z : Nat) : Nat := (x &&& y) ^^^ ((x ^^^ 4294967295) &&& z)

/-- SHA-256 `Maj` function. -/
def maj (x y z : Nat) : Nat := (x &&& y) ^^^ (x &&& z) ^^^ (y &&& z)

def bigSigma0 (x : Nat) : Nat := (rotr 2 x) ^^^ (rotr 13 x) ^^^ (rotr 22 x)

def bigSigma1 (x : Nat) : Nat := (rotr 6 x) ^^^ (rotr 11 x) ^^^ (rotr 25 x)

def smallSigma0 (x : Nat) : Nat := (rotr 7 x) ^^^ (rotr 18 x) ^^^ (x >>> 3)

def smallSigma1 (x : Nat) : Nat := (rotr 17 x) ^^^ (rotr 19 x) ^^^ (x >>> 10)

/-- The 64 SHA-256 round constants, as decimal word values. -/
def K : List Nat :=
  [1116352408, 1899447441, 3049323471, 3921009573, 961987163, 1508970993,
   2453635748, 2870763221, 3624381080, 310598401, 607225278, 1426881987,
   1925078388, 2162078206, 2614888103, 3248222580, 3835390401, 4022224774,
   264347078, 604807628, 770255983, 1249150122, 1555081692, 1996064986,
   2554220882, 2821834349, 2952996808, 3210313671, 3336571891, 3584528711,
   113926993, 338241895, 666307205, 773529912, 1294757372, 1396182291,
   1695183700, 1986661051, 2177026350, 2456956037, 2730485921, 2820302411,
   3259730800, 3345764771, 3516065817, 3600352804, 4094571909, 275423344,
   430227734, 506948616, 659060556, 883997877, 958139571, 1322822218,
   1537002063, 1747873779, 1955562222, 2024104815, 2227730452, 2361852424,
   2428436474, 2756734187, 3204031479, 3329325298]

/-- The SHA-256 initial hash value, as decimal word values. -/
def H0 : List Nat :=
  [1779033703, 3144134277, 1013904242, 2773480762,
   1359893119, 2600822924, 528734635, 1541459225]

/-- Extend a 16-word message-schedule block by `n` further words. -/
def extendW : Nat → List Nat → List Nat
  | 0, ws => ws
  | n + 1, ws =>
      let L := ws.length
      let w := w32 (smallSigma1 (ws.getD (L - 2) 0) + ws.getD (L - 7) 0 +
                    smallSigma0 (ws.getD (L - 15) 0) + ws.getD (L - 16) 0)
      extendW n (ws ++ [w])

/-- One SHA-256 compression round; the state is the eight working words. -/
def compressRound (st : List Nat) (kw : Nat × Nat) : List Nat :=
  match st with
  | [a, b, c, d, e, f, g, h] =>
      let t1 := w32 (h + bigSigma1 e + ch e f g + kw.1 + kw.2)
      let t2 := w32 (bigSigma0 a + maj a b c)
      [w32 (t1 + t2), a, b, c, w32 (d + t1), e, f, g]
  | other => other

/-- Compress one 16-word block into the running hash. -/
def compress (h : List Nat) (block : List Nat) : List Nat :=
  let ws := extendW 48 block
  let st := (K.zip ws).foldl (fun s kw => compressRound s kw) h
  (h.zip st).map (fun p => w32 (p.1 + p.2))

/-- Big-endian bytes of `x`, `n` bytes wide. -/
def beBytes : Nat → Nat → List Nat
  | 0, _ => []
  | n + 1, x => (x >>> (8 * n)) % 256 :: beBytes n x

/-- SHA-256 padding: `0x80`, zeros to 56 mod 64, then the 64-bit bit length. -/
def pad (msg : List Nat) : List Nat :=
  let L := msg.length
  msg ++ [0x80] ++ List.replicate ((119 - L % 64) % 64) 0 ++ beBytes 8 (8 * L)

/-- Group a byte list into big-endian 32-bit words. -/
def toWords : List Nat → List Nat
  | b0 :: b1 :: b2 :: b3 :: rest => (((b0 * 256 + b1) * 256 + b2) * 256 + b3) :: toWords rest
  | _ => []

/-- Group a word list into 16-word blocks; the fuel argument (instantiated
with the list length, which always suffices) keeps the recursion structural
so that the kernel can evaluate digests of concrete inputs. -/
def toBlocks : Nat → List Nat → List (List Nat)
  | 0, _ => []
  | _, [] => []
  | fuel + 1, w :: ws => (w :: ws).take 16 :: toBlocks fuel ((w :: ws).drop 16)

/-- SHA-256 digest (32 bytes) of a byte list; Go `sha256.Sum256`. -/
def sha256 (msg : List Nat) : List Nat :=
  let ws := toWords (pad msg)
  let final := (toBlocks ws.length ws).foldl compress H0
  final.flatMap (beBytes 4)

/-- One lowercase hex digit. -/
def hexDigit (n : Nat) : Char := if n < 10 then Char.ofNat (48 + n) else Char.ofNat (87 + n)

/-- Two lowercase hex digits of one byte. -/
def byteToHex (b : Nat) : List Char := [hexDigit (b / 16), hexDigit (b % 16)]

/-- Lowercase hex encoding of a byte list; Go `hex.EncodeToString` and the
`%x` format verb, which agree on byte slices. -/
def hexEncode (bs : List Nat) : String := String.mk (bs.flatMap byteToHex)

/-- Go `hex.EncodeToString(sha256.Sum256(data)[:])`, the digest format used
throughout the repository. -/
def sha256hex (msg : List Nat) : String := hexEncode (sha256 msg)

/-- UTF-8 bytes of one scalar value (what Go ranges over when converting a
`string` to `[]byte`). -/
def charUtf8 (c : Char) : List Nat :=
  let n := c.toNat
  if n < 0x80 then [n]
  else if n < 0x800 then [0xc0 ||| (n >>> 6), 0x80 ||| (n &&& 0x3f)]
  else if n < 0x10000 then
    [0xe0 ||| (n >>> 12), 0x80 ||| ((n >>> 6) &&& 0x3f), 0x80 ||| (n &&& 0x3f)]
  else
    [0xf0 ||| (n >>> 18), 0x80 ||| ((n >>> 12) &&& 0x3f),
     0x80 ||| ((n >>> 6) &&& 0x3f), 0x80 ||| (n &&& 0x3f)]

/-- UTF-8 bytes of a string; Go `[]byte(s)`. -/
def utf8Bytes (s : String) : List Nat := s.data.flatMap charUtf8

/-- Decidable equality for `Except` results, used to evaluate the model on
concrete inputs. -/
instance {ε α : Type} [DecidableEq ε] [DecidableEq α] :
    DecidableEq (Except ε α) := fun x y =>
  match x, y with
  | Except.ok a, Except.ok b =>
      if h : a = b then isTrue (by rw [h])
      else isFalse (by intro hc; cases hc; exact h rfl)
  | Except.error a, Except.error b =>
      if h : a = b then isTrue (by rw [h])
      else isFalse (by intro hc; cases hc; exact h rfl)
  | Except.ok _, Except.error _ => isFalse (by intro hc; cases hc)
  | Except.error _, Except.ok _ => isFalse (by intro hc; cases hc)

/-! ## Chunk codec (`pkg/chunk/chunk.go`) -/

/-- `chunk.Chunk`: a single chunk of data.  `id` is a Go `int` (the code
compares it against a loop index), hence `Int`. -/
structure Chunk where
  id : Int
  data : List Nat
  checksum : String
  deriving DecidableEq

/-- `chunk.Chunker`.  `size` is the configured chunk size. -/
structure Chunker where
  size : Nat
  deriving DecidableEq

/-- `chunk.New`: a non-positive requested size snaps to the 1 MiB default. -/
def Chunker.new (size : Int) : Chunker :=
  if size ≤ 0 then ⟨1024 * 1024⟩ else ⟨size.toNat⟩

/-- The loop body of `Chunker.Split`: the Go loop
`for i := 0; i < len(data); i += c.Size` emits `data[i:min(i+Size, len)]`
with sequential ids; `firstId` is `len(chunks)` at loop entry.  For
`size = 0` the Go loop does not terminate (no return value); that case is
outside every claim (all quantify over positive sizes) and is mapped to `[]`
here. -/
def splitFrom (size firstId : Nat) (data : List Nat) : List Chunk :=
  if _h : data = [] ∨ size = 0 then []
  else
    Chunk.mk (Int.ofNat firstId) (data.take size) (sha256hex (data.take size)) ::
      splitFrom size (firstId + 1) (data.drop size)
  termination_by data.length
  decreasing_by
    rw [not_or] at _h
    have hd : 0 < data.length := List.length_pos.mpr _h.1
    have hs : 0 < size := Nat.pos_of_ne_zero _h.2
    simp only [List.length_drop]
    omega

/-- `Chunker.Split`: splits data into chunks. -/
def Chunker.Split (c : Chunker) (data : List Nat) : List Chunk :=
  splitFrom c.size 0 data

/-- Number of characters of the checksum string that are not `'0'`; the Go
loop counting `chunk.Checksum[j] != '0'` (checksums are ASCII, so bytes and
characters agree). -/
def nonZeroCount (s : String) : Nat := (s.data.filter (fun c => c ≠ '0')).length

/-- The loop body of `Chunker.Reassemble`, from position `i`.  The result
carries the reassembled bytes together with the list of fallback-checksum
warnings the Go code prints (its observable side channel).  A chunk whose id
differs from its position is an out-of-order error; a checksum of length 64
that differs from the recomputed digest is a mismatch error when it has more
than 16 non-zero characters and a warned-but-accepted fallback otherwise;
any other checksum is accepted as-is. -/
def reassembleFrom : Nat → List Chunk → Except String (List Nat × List String)
  | _, [] => Except.ok ([], [])
  | i, c :: rest =>
    if c.id ≠ Int.ofNat i then
      Except.error ("chunk " ++ toString i ++ " missing or out of order")
    else
      let expectedChecksum := sha256hex c.data
      if c.checksum.length = 64 ∧ c.checksum ≠ expectedChecksum then
        if 16 < nonZeroCount c.checksum then
          Except.error ("chunk " ++ toString i ++ " checksum mismatch")
        else
          match reassembleFrom (i + 1) rest with
          | Except.ok (bs, warns) =>
              Except.ok (c.data ++ bs,
                ("Warning: chunk " ++ toString i ++
                  " using fallback checksum (non-HTTPS upload)") :: warns)
          | Except.error e => Except.error e
      else
        match reassembleFrom (i + 1) rest with
        | Except.ok (bs, warns) => Except.ok (c.data ++ bs, warns)
        | Except.error e => Except.error e

/-- `Chunker.Reassemble`: combines chunks back into the original data. -/
def Chunker.Reassemble (_c : Chunker) (chunks : List Chunk) :
    Except String (List Nat × List String) :=
  reassembleFrom 0 chunks

/-! ## Association-list maps (Go maps and per-key files) -/

/-- Lookup by key in an association list. -/
def lookupAssoc {κ α : Type} [DecidableEq κ] (k : κ) : List (κ × α) → Option α
  | [] => none
  | p :: rest => if p.1 = k then some p.2 else lookupAssoc k rest

/-- Insert-or-replace a binding; Go `m[k] = v` / overwriting a file. -/
def setAssoc {κ α : Type} [DecidableEq κ] (k : κ) (v : α) :
    List (κ × α) → List (κ × α)
  | [] => [(k, v)]
  | p :: rest => if p.1 = k then (k, v) :: rest else p :: setAssoc k v rest

/-- Remove all bindings of a key; Go `delete(m, k)` / `os.Remove`. -/
def delAssoc {κ α : Type} [DecidableEq κ] (k : κ) (l : List (κ × α)) :
    List (κ × α) :=
  l.filter (fun p => decide (p.1 ≠ k))

/-! ## Session store (`pkg/resume/session.go`) -/

/-- `resume.UploadSession`: the state of one partial upload.  Timestamps are
`Int` instants; `totalChunks` and `chunkSize` are the non-negative counts the
modelled API surface carries. -/
structure UploadSession where
  path : String
  totalChunks : Nat
  chunkSize : Nat
  fileHash : String
  receivedMap : List Bool
  createdAt : Int
  lastModified : Int
  completed : Bool
  deriving DecidableEq

/-- `SessionStore.makeSessionID`: first 16 hex characters of the SHA-256 of
the path. -/
def makeSessionID (path : String) : String :=
  (hexEncode (sha256 (utf8Bytes path))).take 16

/-- `resume.SessionStore`: `sessions` is the in-memory map keyed by session
id; `disk` is the set of persisted metadata files (`saveSession` writes one
JSON file per session id, also keyed by session id). -/
structure SessionStore where
  sessions : List (String × UploadSession)
  disk : List (String × UploadSession)
  deriving DecidableEq

/-- `resume.NewSessionStore`: constructs a store over a persistence
directory, loading every session file into memory (`loadSessions`). -/
def NewSessionStore (disk : List (String × UploadSession)) : SessionStore :=
  { sessions := disk, disk := disk }

/-- `SessionStore.GetOrCreateSession`.  Returns the (possibly updated) store
together with the result; an error leaves the store exactly as it was, which
is what the Go early returns do. -/
def SessionStore.GetOrCreateSession (st : SessionStore) (path : String)
    (totalChunks chunkSize : Nat) (now : Int) :
    SessionStore × Except String UploadSession :=
  let sessionID := makeSessionID path
  match lookupAssoc sessionID st.sessions with
  | some session =>
      if session.totalChunks ≠ totalChunks then
        (st, Except.error ("chunk count mismatch: session has " ++
          toString session.totalChunks ++ ", request has " ++ toString totalChunks))
      else
        (st, Except.ok session)
  | none =>
      let session : UploadSession :=
        { path := path
          totalChunks := totalChunks
          chunkSize := chunkSize
          fileHash := ""
          receivedMap := List.replicate totalChunks false
          createdAt := now
          lastModified := now
          completed := false }
      ({ sessions := setAssoc sessionID session st.sessions
         disk := setAssoc sessionID session st.disk }, Except.ok session)

/-- `SessionStore.MarkChunkReceived`.  `chunkID` is a Go `int` and is
validated against `[0, totalChunks)`; on success the bitmap entry is set, the
modification timestamp updated, the completed flag recomputed as the
conjunction of the bitmap, and the session persisted (written to `disk`). -/
def SessionStore.MarkChunkReceived (st : SessionStore) (path : String)
    (chunkID : Int) (now : Int) : SessionStore × Except String Unit :=
  let sessionID := makeSessionID path
  match lookupAssoc sessionID st.sessions with
  | none => (st, Except.error ("session not found for path: " ++ path))
  | some session =>
      if chunkID < 0 ∨ (session.totalChunks : Int) ≤ chunkID then
        (st, Except.error ("invalid chunk ID: " ++ toString chunkID ++
          " (total: " ++ toString session.totalChunks ++ ")"))
      else
        let rm := session.receivedMap.set chunkID.toNat true
        let session2 : UploadSession :=
          { session with
              receivedMap := rm
              lastModified := now
              completed := rm.all (fun b => b) }
        ({ sessions := setAssoc sessionID session2 st.sessions
           disk := setAssoc sessionID session2 st.disk }, Except.ok ())

/-- `SessionStore.GetSession`: read-only lookup. -/
def SessionStore.GetSession (st : SessionStore) (path : String) :
    Option UploadSession :=
  lookupAssoc (makeSessionID path) st.sessions

/-- `SessionStore.DeleteSession`: removes the in-memory session and its
metadata file (a missing file is not an error). -/
def SessionStore.DeleteSession (st : SessionStore) (path : String) :
    SessionStore :=
  let sessionID := makeSessionID path
  { sessions := delAssoc sessionID st.sessions
    disk := delAssoc sessionID st.disk }

/-- The loop of `GetMissingChunks`: indices (from `i`) of `false` entries. -/
def missingFrom : Nat → List Bool → List Nat
  | _, [] => []
  | i, b :: rest => if b then missingFrom (i + 1) rest else i :: missingFrom (i + 1) rest

/-- `SessionStore.GetMissingChunks`: the ids not yet received. -/
def SessionStore.GetMissingChunks (st : SessionStore) (path : String) :
    Except String (List Nat) :=
  match lookupAssoc (makeSessionID path) st.sessions with
  | none => Except.error ("session not found for path: " ++ path)
  | some session => Except.ok (missingFrom 0 session.receivedMap)

/-- Whether `CleanupOldSessions` deletes this session: last modified strictly
before `cutoff` and not completed. -/
def staleAt (cutoff : Int) (s : UploadSession) : Bool :=
  decide (s.lastModified < cutoff) && ! s.completed

/-- `SessionStore.CleanupOldSessions`.  The Go function collects the stale
incomplete session ids, deletes each from the map and removes its metadata
file, and returns only an `error` (always `nil` here); the number removed is
not returned — it is printed, and only when positive.  The printed count is
modelled as the `Option Nat` component. -/
def SessionStore.CleanupOldSessions (st : SessionStore) (maxAge now : Int) :
    SessionStore × Option Nat :=
  let cutoff := now - maxAge
  let toDelete := (st.sessions.filter (fun p => staleAt cutoff p.2)).map (fun p => p.1)
  let sessions2 := toDelete.foldl (fun m k => delAssoc k m) st.sessions
  let disk2 := toDelete.foldl (fun m k => delAssoc k m) st.disk
  ({ sessions := sessions2, disk := disk2 },
   if 0 < toDelete.length then some toDelete.length else none)

/-! ## Upload orchestrator (`pkg/server/server.go`) -/

/-- `transport.ChunkData`: one parsed upload request body. -/
structure ChunkData where
  path : String
  chunkID : Int
  data : List Nat
  checksum : String
  total : Nat
  deriving DecidableEq

/-- Server-side state touched by `handleUpload`: the session store, the
staged chunk files (keyed by session chunks directory and chunk index, the
pair the Go code encodes in the path `<chunksDir>/<dir>/chunk_%06d.dat`), and
the storage backend's contents. -/
structure ServerState where
  store : SessionStore
  staged : List ((String × Int) × List Nat)
  storageFiles : List (String × List Nat)
  deriving DecidableEq

/-- The derivation `sessionHash := fmt.Sprintf("%x", []byte(path))` followed
by `sessionHash[:16]`: the Go slice expression panics when the hex string is
shorter than 16 bytes, modelled as `none`. -/
def sessionDirOf (path : String) : Option String :=
  let sessionHash := hexEncode (utf8Bytes path)
  if sessionHash.length < 16 then none else some (sessionHash.take 16)

/-- Outcome of one `handleUpload` request: a runtime panic (no HTTP response
at all), a typed `http.Error` fault, or the success acknowledgement
`"chunk %d/%d received"` with `chunkID+1` and the declared total. -/
inductive UploadResult where
  | crash (msg : String)
  | fault (msg : String)
  | ok (chunkPos : Int) (total : Nat)
  deriving DecidableEq

/-- The read loop of `Server.reassembleFromDisk`: chunks `i, i+1, ...` for
`count` chunks, concatenated in ascending index order; a missing staged file
is a read error. -/
def readChunksFrom (staged : List ((String × Int) × List Nat)) (dir : String) :
    Nat → Nat → Except String (List Nat)
  | _, 0 => Except.ok []
  | i, count + 1 =>
      match lookupAssoc (dir, Int.ofNat i) staged with
      | none => Except.error ("failed to read chunk " ++ toString i)
      | some bytes =>
          match readChunksFrom staged dir (i + 1) count with
          | Except.ok rest => Except.ok (bytes ++ rest)
          | Except.error e => Except.error e

/-- `Server.reassembleFromDisk`: reads the staged chunks in ascending order,
concatenates them, and hands the artifact to the storage backend
(`storage.Put remotePath`).  Any failure leaves the storage untouched (the
partial temp file the Go code may leave behind is internal scratch, not part
of the session, staging, or storage state). -/
def reassembleFromDisk (st : ServerState) (chunksDir remotePath : String)
    (totalChunks : Nat) : Except String ServerState :=
  match readChunksFrom st.staged chunksDir 0 totalChunks with
  | Except.error e => Except.error e
  | Except.ok finalData =>
      Except.ok { st with storageFiles := setAssoc remotePath finalData st.storageFiles }

/-- `Server.handleUpload` for one parsed request (method check, body read and
JSON decoding happen before the modelled region and reject malformed requests
without touching any state).  Mirrors the Go control flow: get-or-create the
session; derive the session chunks directory (a panic for short paths); stage
the chunk (overwriting any previous staging of that index); mark it received;
if the session — read through the pointer `MarkChunkReceived` just updated —
is completed, reassemble into storage and only on success delete the staging
directory and the session record. -/
def handleUpload (st : ServerState) (req : ChunkData) (now : Int) :
    ServerState × UploadResult :=
  match st.store.GetOrCreateSession req.path req.total req.data.length now with
  | (store1, Except.error e) =>
      ({ st with store := store1 }, UploadResult.fault ("session error: " ++ e))
  | (store1, Except.ok _session) =>
    match sessionDirOf req.path with
    | none =>
        ({ st with store := store1 },
         UploadResult.crash "slice bounds out of range")
    | some sessionChunksDir =>
      let staged1 := setAssoc (sessionChunksDir, req.chunkID) req.data st.staged
      match store1.MarkChunkReceived req.path req.chunkID now with
      | (store2, Except.error e) =>
          ({ st with store := store2, staged := staged1 },
           UploadResult.fault ("failed to mark chunk: " ++ e))
      | (store2, Except.ok _) =>
        let completed :=
          match lookupAssoc (makeSessionID req.path) store2.sessions with
          | some s => s.completed
          | none => false
        let st2 : ServerState := { st with store := store2, staged := staged1 }
        if completed then
          match reassembleFromDisk st2 sessionChunksDir req.path req.total with
          | Except.error e =>
              (st2, UploadResult.fault ("reassembly failed: " ++ e))
          | Except.ok st3 =>
              let st4 : ServerState :=
                { st3 with staged :=
                    st3.staged.filter (fun q => decide (q.1.1 ≠ sessionChunksDir)) }
              (({ st4 with store := st4.store.DeleteSession req.path }),
               UploadResult.ok (req.chunkID + 1) req.total)
        else
          (st2, UploadResult.ok (req.chunkID + 1) req.total)

/-! ## Reachable session-store states -/

/-- Session-store states reachable from a fresh store (empty persistence
directory) through the store's API, including a restart
(`NewSessionStore` over the persisted files). -/
inductive StoreReachable : SessionStore → Prop where
  | empty : StoreReachable { sessions := [], disk := [] }
  | getOrCreate (st : SessionStore) (path : String) (total size : Nat) (now : Int) :
      StoreReachable st →
      StoreReachable (st.GetOrCreateSession path total size now).1
  | markReceived (st : SessionStore) (path : String) (chunkID now : Int) :
      StoreReachable st →
      StoreReachable (st.MarkChunkReceived path chunkID now).1
  | deleteSession (st : SessionStore) (path : String) :
      StoreReachable st →
      StoreReachable (st.DeleteSession path)
  | cleanup (st : SessionStore) (maxAge now : Int) :
      StoreReachable st →
      StoreReachable (st.CleanupOldSessions maxAge now).1
  | restart (st : SessionStore) :
      StoreReachable st →
      StoreReachable (NewSessionStore st.disk)

/-- The per-session well-formedness the spec asserts, corrected at
`totalChunks = 0`: the bitmap has one entry per expected chunk, and the
completed flag holds exactly when the session has at least one expected chunk
and every bitmap entry is true. -/
def SessionWF (s : UploadSession) : Prop :=
  s.receivedMap.length = s.totalChunks ∧
  (s.completed = true ↔ (s.totalChunks ≠ 0 ∧ s.receivedMap.all (fun b => b) = true))

end GoFlux

namespace GoFlux

/-! ## Association-list lemmas -/

theorem lookupAssoc_setAssoc_self {κ α : Type} [DecidableEq κ] (k : κ) (v : α)
    (l : List (κ × α)) : lookupAssoc k (setAssoc k v l) = some v := by
  induction l with
  | nil => simp [setAssoc, lookupAssoc]
  | cons p rest ih =>
      by_cases h : p.1 = k
      · simp [setAssoc, lookupAssoc, h]
      · simp [setAssoc, lookupAssoc, h, ih]

theorem lookupAssoc_setAssoc_ne {κ α : Type} [DecidableEq κ] (k k2 : κ) (v : α)
    (l : List (κ × α)) (hne : k2 ≠ k) :
    lookupAssoc k2 (setAssoc k v l) = lookupAssoc k2 l := by
  have hne2 : ¬ (k = k2) := fun h => hne h.symm
  induction l with
  | nil => simp [setAssoc, lookupAssoc, hne2]
  | cons p rest ih =>
      by_cases h : p.1 = k
      · subst h
        have hne3 : ¬ (p.1 = k2) := fun h => hne h.symm
        simp [setAssoc, lookupAssoc, hne3]
      · simp only [setAssoc, if_neg h, lookupAssoc]
        by_cases h2 : p.1 = k2 <;> simp [h2, ih]

theorem mem_setAssoc {κ α : Type} [DecidableEq κ] (k : κ) (v : α)
    (l : List (κ × α)) (p : κ × α) (hp : p ∈ setAssoc k v l) :
    p = (k, v) ∨ p ∈ l := by
  induction l with
  | nil => simpa [setAssoc] using hp
  | cons q rest ih =>
      by_cases h : q.1 = k
      · rcases (by simpa [setAssoc, h] using hp) with h1 | h1
        · exact Or.inl h1
        · exact Or.inr (List.mem_cons_of_mem _ h1)
      · rcases (by simpa [setAssoc, h] using hp) with h1 | h1
        · exact Or.inr (by simp [h1])
        · rcases ih h1 with h2 | h2
          · exact Or.inl h2
          · exact Or.inr (List.mem_cons_of_mem _ h2)

theorem mem_of_lookupAssoc {κ α : Type} [DecidableEq κ] (k : κ) (v : α)
    (l : List (κ × α)) (h : lookupAssoc k l = some v) : (k, v) ∈ l := by
  induction l with
  | nil => simp [lookupAssoc] at h
  | cons p rest ih =>
      by_cases hk : p.1 = k
      · have hv : p.2 = v := by simpa [lookupAssoc, hk] using h
        have hp : (k, v) = p := by
          cases p
          simp only [Prod.mk.injEq]
          exact ⟨hk.symm, hv.symm⟩
        rw [hp]
        exact List.mem_cons_self _ _
      · have := ih (by simpa [lookupAssoc, hk] using h)
        exact List.mem_cons_of_mem _ this

theorem lookupAssoc_of_mem_nodup {κ α : Type} [DecidableEq κ] (k : κ) (v : α)
    (l : List (κ × α)) (hnd : (l.map Prod.fst).Nodup) (hm : (k, v) ∈ l) :
    lookupAssoc k l = some v := by
  induction l with
  | nil => simp at hm
  | cons p rest ih =>
      rcases List.mem_cons.mp hm with h1 | h1
      · simp [lookupAssoc, ← h1]
      · have hk : p.1 ≠ k := by
          intro hk
          have : k ∈ rest.map Prod.fst := List.mem_map.mpr ⟨(k, v), h1, rfl⟩
          simp only [List.map_cons, List.nodup_cons] at hnd
          exact hnd.1 (hk ▸ this)
        simp only [lookupAssoc, if_neg hk]
        exact ih (by simpa using (List.nodup_cons.mp (by simpa using hnd)).2) h1

theorem lookupAssoc_delAssoc {κ α : Type} [DecidableEq κ] (k k2 : κ)
    (l : List (κ × α)) :
    lookupAssoc k2 (delAssoc k l) = if k2 = k then none else lookupAssoc k2 l := by
  induction l with
  | nil => simp [delAssoc, lookupAssoc]
  | cons p rest ih =>
      simp only [delAssoc, List.filter_cons] at ih ⊢
      by_cases hp : p.1 = k
      · by_cases h2 : k2 = k
        · simpa [hp, h2] using ih
        · have h2a : ¬ (k = k2) := fun h => h2 h.symm
          simpa [hp, h2, h2a, lookupAssoc] using ih
      · by_cases h2 : p.1 = k2
        · have hk2 : ¬ (k2 = k) := fun h => hp (h2.symm ▸ h ▸ rfl)
          simp [hp, h2, lookupAssoc, hk2]
        · simpa [hp, h2, lookupAssoc] using ih

theorem mem_delAssoc {κ α : Type} [DecidableEq κ] (k : κ) (l : List (κ × α))
    (p : κ × α) (hp : p ∈ delAssoc k l) : p ∈ l :=
  List.mem_of_mem_filter hp

theorem lookupAssoc_foldl_delAssoc {κ α : Type} [DecidableEq κ] (ks : List κ)
    (k2 : κ) : ∀ l : List (κ × α),
    lookupAssoc k2 (ks.foldl (fun m k => delAssoc k m) l) =
      if k2 ∈ ks then none else lookupAssoc k2 l := by
  induction ks with
  | nil => intro l; simp
  | cons k ks ih =>
      intro l
      simp only [List.foldl_cons]
      rw [ih (delAssoc k l), lookupAssoc_delAssoc]
      by_cases h1 : k2 ∈ ks <;> by_cases h2 : k2 = k <;> simp [h1, h2]

theorem mem_foldl_delAssoc {κ α : Type} [DecidableEq κ] (ks : List κ)
    (p : κ × α) : ∀ l : List (κ × α),
    p ∈ ks.foldl (fun m k => delAssoc k m) l → p ∈ l := by
  induction ks with
  | nil => intro l h; simpa using h
  | cons k ks ih =>
      intro l h
      exact mem_delAssoc k l p (ih (delAssoc k l) (by simpa using h))

/-! ## Bitmap lemmas -/

theorem mem_missingFrom (rm : List Bool) : ∀ i j : Nat,
    j ∈ missingFrom i rm ↔ ∃ n : Nat, n < rm.length ∧ rm.getD n true = false ∧ j = i + n := by
  induction rm with
  | nil => intro i j; simp [missingFrom]
  | cons b rest ih =>
      intro i j
      cases b
      · rw [show missingFrom i (false :: rest) = i :: missingFrom (i + 1) rest from by
          simp [missingFrom]]
        simp only [List.mem_cons, ih (i + 1) j, List.length_cons]
        constructor
        · rintro (rfl | ⟨n, h1, h2, rfl⟩)
          · exact ⟨0, by omega, by simp [List.getD_cons_zero], by omega⟩
          · exact ⟨n + 1, by omega, by simpa [List.getD_cons_succ] using h2, by omega⟩
        · rintro ⟨n, h1, h2, rfl⟩
          cases n with
          | zero => left; omega
          | succ m =>
              right
              exact ⟨m, by omega, by simpa [List.getD_cons_succ] using h2, by omega⟩
      · rw [show missingFrom i (true :: rest) = missingFrom (i + 1) rest from by
          simp [missingFrom]]
        rw [ih (i + 1) j]
        simp only [List.length_cons]
        constructor
        · rintro ⟨n, h1, h2, rfl⟩
          exact ⟨n + 1, by omega, by simpa [List.getD_cons_succ] using h2, by omega⟩
        · rintro ⟨n, h1, h2, rfl⟩
          cases n with
          | zero => simp [List.getD_cons_zero] at h2
          | succ m => exact ⟨m, by omega, by simpa [List.getD_cons_succ] using h2, by omega⟩

theorem missingFrom_ge (rm : List Bool) : ∀ i j : Nat, j ∈ missingFrom i rm → i ≤ j := by
  intro i j h
  rcases (mem_missingFrom rm i j).mp h with ⟨n, _, _, rfl⟩
  omega

theorem missingFrom_pairwise (rm : List Bool) : ∀ i : Nat,
    (missingFrom i rm).Pairwise (fun a b => a < b) := by
  induction rm with
  | nil => intro i; simp [missingFrom]
  | cons b rest ih =>
      intro i
      cases b
      · simp only [missingFrom, Bool.false_eq_true, if_neg]
        refine List.Pairwise.cons ?_ (ih (i + 1))
        intro j hj
        have := missingFrom_ge rest (i + 1) j hj
        omega
      · simpa [missingFrom] using ih (i + 1)

/-! ## Session-store claim theorems -/

/-- Claim C3: for a path with an existing session, `GetOrCreateSession`
returns that session when the requested total matches and fails with the
chunk-count-mismatch error otherwise, leaving the store (in-memory sessions
and persisted records) exactly as it was; for a path with no session it
creates, persists, and returns a new session with an all-false bitmap of
length the requested total. -/
theorem getOrCreateSession_spec (st : SessionStore) (path : String)
    (total size : Nat) (now : Int) :
    (∀ s, lookupAssoc (makeSessionID path) st.sessions = some s →
      (s.totalChunks = total →
        st.GetOrCreateSession path total size now = (st, Except.ok s)) ∧
      (s.totalChunks ≠ total →
        ∃ e, st.GetOrCreateSession path total size now = (st, Except.error e))) ∧
    (lookupAssoc (makeSessionID path) st.sessions = none →
      ∃ s2, st.GetOrCreateSession path total size now =
          ({ sessions := setAssoc (makeSessionID path) s2 st.sessions
             disk := setAssoc (makeSessionID path) s2 st.disk }, Except.ok s2) ∧
        s2.receivedMap = List.replicate total false ∧
        s2.receivedMap.length = total ∧
        s2.totalChunks = total ∧
        s2.completed = false ∧
        lookupAssoc (makeSessionID path)
          (st.GetOrCreateSession path total size now).1.sessions = some s2 ∧
        lookupAssoc (makeSessionID path)
          (st.GetOrCreateSession path total size now).1.disk = some s2) := by
  constructor
  · intro s hs
    constructor
    · intro htot
      simp [SessionStore.GetOrCreateSession, hs, htot]
    · intro htot
      exact ⟨"chunk count mismatch: session has " ++ toString s.totalChunks ++
          ", request has " ++ toString total,
        by simp [SessionStore.GetOrCreateSession, hs, htot]⟩
  · intro hnone
    refine ⟨{ path := path, totalChunks := total, chunkSize := size, fileHash := "",
              receivedMap := List.replicate total false, createdAt := now,
              lastModified := now, completed := false },
      ?_, rfl, by simp, rfl, rfl, ?_, ?_⟩
    · simp [SessionStore.GetOrCreateSession, hnone]
    · simp only [SessionStore.GetOrCreateSession, hnone]
      exact lookupAssoc_setAssoc_self _ _ _
    · simp only [SessionStore.GetOrCreateSession, hnone]
      exact lookupAssoc_setAssoc_self _ _ _

/-- Claim C3 witness: on an empty store, a session for path `"alpha"` with
total 3 is created, persisted, and returned with bitmap `[false, false,
false]`. -/
theorem getOrCreateSession_spec_witness :
    lookupAssoc (makeSessionID "alpha")
      (SessionStore.mk [] []).sessions = none ∧
    ∃ s2, (SessionStore.mk [] []).GetOrCreateSession "alpha" 3 1 0 =
        ({ sessions := setAssoc (makeSessionID "alpha") s2 ([] : List (String × UploadSession))
           disk := setAssoc (makeSessionID "alpha") s2 ([] : List (String × UploadSession)) },
         Except.ok s2) ∧
      s2.receivedMap = List.replicate 3 false ∧
      s2.receivedMap.length = 3 ∧
      s2.totalChunks = 3 ∧
      s2.completed = false ∧
      lookupAssoc (makeSessionID "alpha")
        ((SessionStore.mk [] []).GetOrCreateSession "alpha" 3 1 0).1.sessions = some s2 ∧
      lookupAssoc (makeSessionID "alpha")
        ((SessionStore.mk [] []).GetOrCreateSession "alpha" 3 1 0).1.disk = some s2 :=
  ⟨rfl, (getOrCreateSession_spec (SessionStore.mk [] []) "alpha" 3 1 0).2 rfl⟩

/-- Claim C4: `MarkChunkReceived` fails without mutating anything when no
session exists for the path or when the chunk id is outside `[0, total)`;
on success it sets the bitmap entry, stamps the modification time,
recomputes the completed flag from the updated bitmap, and persists the
updated session. -/
theorem markChunkReceived_spec (st : SessionStore) (path : String)
    (chunkID now : Int) :
    (lookupAssoc (makeSessionID path) st.sessions = none →
      ∃ e, st.MarkChunkReceived path chunkID now = (st, Except.error e)) ∧
    (∀ s, lookupAssoc (makeSessionID path) st.sessions = some s →
      (chunkID < 0 ∨ (s.totalChunks : Int) ≤ chunkID) →
      ∃ e, st.MarkChunkReceived path chunkID now = (st, Except.error e)) ∧
    (∀ s, lookupAssoc (makeSessionID path) st.sessions = some s →
      0 ≤ chunkID → chunkID < (s.totalChunks : Int) →
      st.MarkChunkReceived path chunkID now =
        ({ sessions := setAssoc (makeSessionID path)
              { s with receivedMap := s.receivedMap.set chunkID.toNat true
                       lastModified := now
                       completed := (s.receivedMap.set chunkID.toNat true).all (fun b => b) }
              st.sessions
           disk := setAssoc (makeSessionID path)
              { s with receivedMap := s.receivedMap.set chunkID.toNat true
                       lastModified := now
                       completed := (s.receivedMap.set chunkID.toNat true).all (fun b => b) }
              st.disk }, Except.ok ()) ∧
      (s.receivedMap.length = s.totalChunks →
        (s.receivedMap.set chunkID.toNat true).getD chunkID.toNat false = true)) := by
  refine ⟨?_, ?_, ?_⟩
  · intro hnone
    exact ⟨"session not found for path: " ++ path,
      by simp [SessionStore.MarkChunkReceived, hnone]⟩
  · intro s hs hbad
    exact ⟨"invalid chunk ID: " ++ toString chunkID ++
        " (total: " ++ toString s.totalChunks ++ ")",
      by simp [SessionStore.MarkChunkReceived, hs, if_pos hbad]⟩
  · intro s hs h0 hlt
    have hbad : ¬ (chunkID < 0 ∨ (s.totalChunks : Int) ≤ chunkID) := by omega
    constructor
    · simp [SessionStore.MarkChunkReceived, hs, if_neg hbad]
    · intro hlen
      have hidx : chunkID.toNat < s.receivedMap.length := by omega
      simp [List.getD_eq_getElem?_getD, List.getElem?_set_self, hidx]

/-- Claim C4 witness: marking chunk 1 of a two-chunk session with bitmap
`[true, false]` succeeds, sets the entry, stamps the time, recomputes
completion to true, and persists the result. -/
theorem markChunkReceived_spec_witness :
    lookupAssoc (makeSessionID "beta")
      (setAssoc (makeSessionID "beta")
        (UploadSession.mk "beta" 2 4 "" [true, false] 0 0 false) []) =
      some (UploadSession.mk "beta" 2 4 "" [true, false] 0 0 false) ∧
    (0 : Int) ≤ 1 ∧ (1 : Int) < ((2 : Nat) : Int) ∧
    (SessionStore.mk
        (setAssoc (makeSessionID "beta")
          (UploadSession.mk "beta" 2 4 "" [true, false] 0 0 false) [])
        (setAssoc (makeSessionID "beta")
          (UploadSession.mk "beta" 2 4 "" [true, false] 0 0 false) [])).MarkChunkReceived
        "beta" 1 9 =
      ({ sessions := setAssoc (makeSessionID "beta")
            { UploadSession.mk "beta" 2 4 "" [true, false] 0 0 false with
                receivedMap := [true, false].set (1 : Int).toNat true
                lastModified := 9
                completed := ([true, false].set (1 : Int).toNat true).all (fun b => b) }
            (setAssoc (makeSessionID "beta")
              (UploadSession.mk "beta" 2 4 "" [true, false] 0 0 false) [])
         disk := setAssoc (makeSessionID "beta")
            { UploadSession.mk "beta" 2 4 "" [true, false] 0 0 false with
                receivedMap := [true, false].set (1 : Int).toNat true
                lastModified := 9
                completed := ([true, false].set (1 : Int).toNat true).all (fun b => b) }
            (setAssoc (makeSessionID "beta")
              (UploadSession.mk "beta" 2 4 "" [true, false] 0 0 false) []) },
       Except.ok ()) :=
  ⟨lookupAssoc_setAssoc_self (makeSessionID "beta") _ [], by decide, by decide,
    ((markChunkReceived_spec
        (SessionStore.mk
          (setAssoc (makeSessionID "beta")
            (UploadSession.mk "beta" 2 4 "" [true, false] 0 0 false) [])
          (setAssoc (makeSessionID "beta")
            (UploadSession.mk "beta" 2 4 "" [true, false] 0 0 false) []))
        "beta" 1 9).2.2
      (UploadSession.mk "beta" 2 4 "" [true, false] 0 0 false)
      (lookupAssoc_setAssoc_self (makeSessionID "beta") _ [])
      (by decide) (by decide)).1⟩

/-- Claim C5: for a path with an existing session, `GetMissingChunks`
returns exactly the indices whose bitmap entries are `false`, in strictly
ascending order; for a path with no session it fails. -/
theorem getMissingChunks_spec (st : SessionStore) (path : String) :
    (lookupAssoc (makeSessionID path) st.sessions = none →
      ∃ e, st.GetMissingChunks path = Except.error e) ∧
    (∀ s, lookupAssoc (makeSessionID path) st.sessions = some s →
      st.GetMissingChunks path = Except.ok (missingFrom 0 s.receivedMap) ∧
      (∀ j, j ∈ missingFrom 0 s.receivedMap ↔
        j < s.receivedMap.length ∧ s.receivedMap.getD j true = false) ∧
      (missingFrom 0 s.receivedMap).Pairwise (fun a b => a < b)) := by
  constructor
  · intro hnone
    exact ⟨"session not found for path: " ++ path,
      by simp [SessionStore.GetMissingChunks, hnone]⟩
  · intro s hs
    refine ⟨by simp [SessionStore.GetMissingChunks, hs], ?_, missingFrom_pairwise _ 0⟩
    intro j
    rw [mem_missingFrom]
    constructor
    · rintro ⟨n, h1, h2, rfl⟩
      rw [Nat.zero_add]
      exact ⟨h1, h2⟩
    · rintro ⟨h1, h2⟩
      exact ⟨j, h1, h2, by omega⟩

/-- Claim C5 witness: with bitmap `[false, true, false, true]`, the missing
chunks are exactly `[0, 2]`, in ascending order. -/
theorem getMissingChunks_spec_witness :
    lookupAssoc (makeSessionID "gamma")
      (setAssoc (makeSessionID "gamma")
        (UploadSession.mk "gamma" 4 1 "" [false, true, false, true] 0 0 false) []) =
      some (UploadSession.mk "gamma" 4 1 "" [false, true, false, true] 0 0 false) ∧
    (SessionStore.mk
        (setAssoc (makeSessionID "gamma")
          (UploadSession.mk "gamma" 4 1 "" [false, true, false, true] 0 0 false) [])
        []).GetMissingChunks "gamma" =
      Except.ok (missingFrom 0 [false, true, false, true]) ∧
    missingFrom 0 [false, true, false, true] = [0, 2] :=
  by
  refine ⟨lookupAssoc_setAssoc_self (makeSessionID "gamma") _ [], ?_, by decide⟩
  exact ((getMissingChunks_spec
      (SessionStore.mk
        (setAssoc (makeSessionID "gamma")
          (UploadSession.mk "gamma" 4 1 "" [false, true, false, true] 0 0 false) [])
        []) "gamma").2
      (UploadSession.mk "gamma" 4 1 "" [false, true, false, true] 0 0 false)
      (lookupAssoc_setAssoc_self (makeSessionID "gamma") _ [])).1

/-! ## Chunk-codec lemmas -/

theorem splitFrom_nil (size firstId : Nat) : splitFrom size firstId [] = [] := by
  rw [splitFrom]
  simp

theorem splitFrom_cons (size firstId : Nat) (data : List Nat)
    (hd : data ≠ []) (hs : size ≠ 0) :
    splitFrom size firstId data =
      Chunk.mk (Int.ofNat firstId) (data.take size) (sha256hex (data.take size)) ::
        splitFrom size (firstId + 1) (data.drop size) := by
  rw [splitFrom]
  rw [dif_neg (by simp [hd, hs])]

theorem splitFrom_ne_nil (size firstId : Nat) (data : List Nat)
    (hd : data ≠ []) (hs : size ≠ 0) : splitFrom size firstId data ≠ [] := by
  rw [splitFrom_cons size firstId data hd hs]
  simp

theorem reassembleFrom_splitFrom (size : Nat) (hs : size ≠ 0) :
    ∀ (n : Nat) (data : List Nat), data.length ≤ n → ∀ i : Nat,
      reassembleFrom i (splitFrom size i data) = Except.ok (data, []) := by
  intro n
  induction n with
  | zero =>
      intro data hlen i
      have hd : data = [] := List.eq_nil_of_length_eq_zero (Nat.le_zero.mp hlen)
      subst hd
      simp [splitFrom_nil, reassembleFrom]
  | succ n ih =>
      intro data hlen i
      by_cases hd : data = []
      · subst hd
        simp [splitFrom_nil, reassembleFrom]
      · rw [splitFrom_cons size i data hd hs]
        have hrec : reassembleFrom (i + 1) (splitFrom size (i + 1) (data.drop size)) =
            Except.ok (data.drop size, []) := by
          apply ih
          have h1 : data.length ≤ n + 1 := hlen
          have h2 : 0 < data.length := List.length_pos.mpr hd
          simp only [List.length_drop]
          omega
        simp [reassembleFrom, hrec, List.take_append_drop]

theorem splitFrom_flatten (size : Nat) (hs : size ≠ 0) :
    ∀ (n : Nat) (data : List Nat), data.length ≤ n → ∀ i : Nat,
      ((splitFrom size i data).map (fun c => c.data)).flatten = data := by
  intro n
  induction n with
  | zero =>
      intro data hlen i
      have hd : data = [] := List.eq_nil_of_length_eq_zero (Nat.le_zero.mp hlen)
      subst hd
      simp [splitFrom_nil]
  | succ n ih =>
      intro data hlen i
      by_cases hd : data = []
      · subst hd
        simp [splitFrom_nil]
      · rw [splitFrom_cons size i data hd hs]
        have h2 : 0 < data.length := List.length_pos.mpr hd
        have hrec := ih (data.drop size)
          (by simp only [List.length_drop]; omega) (i + 1)
        simp [hrec, List.take_append_drop]

theorem splitFrom_ids (size : Nat) (hs : size ≠ 0) :
    ∀ (n : Nat) (data : List Nat), data.length ≤ n → ∀ i : Nat,
      (splitFrom size i data).map (fun c => c.id) =
        (List.range' i (splitFrom size i data).length).map Int.ofNat := by
  intro n
  induction n with
  | zero =>
      intro data hlen i
      have hd : data = [] := List.eq_nil_of_length_eq_zero (Nat.le_zero.mp hlen)
      subst hd
      simp [splitFrom_nil]
  | succ n ih =>
      intro data hlen i
      by_cases hd : data = []
      · subst hd
        simp [splitFrom_nil]
      · rw [splitFrom_cons size i data hd hs]
        have h2 : 0 < data.length := List.length_pos.mpr hd
        have hrec := ih (data.drop size)
          (by simp only [List.length_drop]; omega) (i + 1)
        simp [hrec, List.range'_succ i _ 1]

theorem splitFrom_piece_bounds (size : Nat) (hs : size ≠ 0) :
    ∀ (n : Nat) (data : List Nat), data.length ≤ n → ∀ i : Nat,
      ∀ c ∈ splitFrom size i data, c.data.length ≤ size ∧ c.data ≠ [] := by
  intro n
  induction n with
  | zero =>
      intro data hlen i c hc
      have hd : data = [] := List.eq_nil_of_length_eq_zero (Nat.le_zero.mp hlen)
      subst hd
      simp [splitFrom_nil] at hc
  | succ n ih =>
      intro data hlen i c hc
      by_cases hd : data = []
      · subst hd
        simp [splitFrom_nil] at hc
      · rw [splitFrom_cons size i data hd hs] at hc
        have h2 : 0 < data.length := List.length_pos.mpr hd
        rcases List.mem_cons.mp hc with h1 | h1
        · subst h1
          constructor
          · simp [List.length_take]
          · simp only [ne_eq, List.take_eq_nil_iff]
            push_neg
            exact ⟨fun h => hs h, fun h => hd h⟩
        · exact ih (data.drop size)
            (by simp only [List.length_drop]; omega) (i + 1) c h1

theorem splitFrom_dropLast_exact (size : Nat) (hs : size ≠ 0) :
    ∀ (n : Nat) (data : List Nat), data.length ≤ n → ∀ i : Nat,
      ∀ c ∈ (splitFrom size i data).dropLast, c.data.length = size := by
  intro n
  induction n with
  | zero =>
      intro data hlen i c hc
      have hd : data = [] := List.eq_nil_of_length_eq_zero (Nat.le_zero.mp hlen)
      subst hd
      simp [splitFrom_nil] at hc
  | succ n ih =>
      intro data hlen i c hc
      by_cases hd : data = []
      · subst hd
        simp [splitFrom_nil] at hc
      · rw [splitFrom_cons size i data hd hs] at hc
        have h2 : 0 < data.length := List.length_pos.mpr hd
        by_cases hrest : data.drop size = []
        · rw [hrest, splitFrom_nil] at hc
          simp at hc
        · have hne := splitFrom_ne_nil size (i + 1) (data.drop size) hrest hs
          rcases List.exists_cons_of_ne_nil hne with ⟨c2, rest2, heq⟩
          rw [heq] at hc
          rw [List.dropLast_cons₂] at hc
          rcases List.mem_cons.mp hc with h1 | h1
          · subst h1
            have hlen2 : size < data.length := by
              by_contra hcon
              push_neg at hcon
              exact hrest (List.drop_eq_nil_of_le hcon)
            simp [List.length_take]
            omega
          · have := ih (data.drop size)
              (by simp only [List.length_drop]; omega) (i + 1) c
            rw [heq] at this
            exact this h1

/-- Claim C1: for every byte buffer and every positive chunk size,
`Reassemble` after `Split` returns the original buffer with no error and no
warnings; `Split` partitions the buffer (the pieces concatenate back to it,
every piece except possibly the last has exactly the configured size, every
piece is non-empty and at most the configured size), assigns sequential ids
starting at 0, and maps an empty buffer to an empty chunk sequence. -/
theorem split_reassemble_roundtrip (S : Nat) (B : List Nat) (hS : 0 < S) :
    (Chunker.mk S).Reassemble ((Chunker.mk S).Split B) = Except.ok (B, []) ∧
    (((Chunker.mk S).Split B).map (fun c => c.data)).flatten = B ∧
    (∀ c ∈ ((Chunker.mk S).Split B).dropLast, c.data.length = S) ∧
    (∀ c ∈ (Chunker.mk S).Split B, c.data.length ≤ S ∧ c.data ≠ []) ∧
    ((Chunker.mk S).Split B).map (fun c => c.id) =
      (List.range ((Chunker.mk S).Split B).length).map Int.ofNat ∧
    (B = [] → (Chunker.mk S).Split B = []) := by
  have hs : S ≠ 0 := Nat.pos_iff_ne_zero.mp hS
  refine ⟨?_, ?_, ?_, ?_, ?_, ?_⟩
  · exact reassembleFrom_splitFrom S hs B.length B (Nat.le_refl _) 0
  · exact splitFrom_flatten S hs B.length B (Nat.le_refl _) 0
  · exact splitFrom_dropLast_exact S hs B.length B (Nat.le_refl _) 0
  · exact splitFrom_piece_bounds S hs B.length B (Nat.le_refl _) 0
  · rw [List.range_eq_range']
    exact splitFrom_ids S hs B.length B (Nat.le_refl _) 0
  · intro hB
    rw [hB]
    exact splitFrom_nil S 0

/-- Claim C1 witness: chunk size 2 on the three-byte buffer `[1, 2, 3]`
round-trips. -/
theorem split_reassemble_roundtrip_witness :
    0 < 2 ∧
    (Chunker.mk 2).Reassemble ((Chunker.mk 2).Split [1, 2, 3]) =
      Except.ok ([1, 2, 3], []) :=
  ⟨Nat.zero_lt_two, (split_reassemble_roundtrip 2 [1, 2, 3] Nat.zero_lt_two).1⟩

/-- Claim C7 (amended): `Reassemble` validates only digests whose length is
exactly 64: a mismatching 64-character digest with more than 16 non-zero
characters is a checksum-mismatch error; a mismatching 64-character digest
with at most 16 non-zero characters (the fallback shape) is accepted with a
warning pushed onto the warning channel; a digest of any other length is
accepted silently, whether or not it matches. -/
theorem reassemble_checksum_validation (i : Nat) (c : Chunk) (rest : List Chunk)
    (hid : c.id = Int.ofNat i) :
    (c.checksum.length = 64 → c.checksum ≠ sha256hex c.data →
      16 < nonZeroCount c.checksum →
      reassembleFrom i (c :: rest) =
        Except.error ("chunk " ++ toString i ++ " checksum mismatch")) ∧
    (c.checksum.length = 64 → c.checksum ≠ sha256hex c.data →
      nonZeroCount c.checksum ≤ 16 →
      reassembleFrom i (c :: rest) =
        (match reassembleFrom (i + 1) rest with
         | Except.ok (bs, warns) => Except.ok (c.data ++ bs,
             ("Warning: chunk " ++ toString i ++
               " using fallback checksum (non-HTTPS upload)") :: warns)
         | Except.error e => Except.error e)) ∧
    (c.checksum.length ≠ 64 →
      reassembleFrom i (c :: rest) =
        (match reassembleFrom (i + 1) rest with
         | Except.ok (bs, warns) => Except.ok (c.data ++ bs, warns)
         | Except.error e => Except.error e)) := by
  refine ⟨?_, ?_, ?_⟩
  · intro h64 hneq hnz
    simp [reassembleFrom, hid, h64, hneq, hnz]
  · intro h64 hneq hnz
    have hnz2 : ¬ (16 < nonZeroCount c.checksum) := by omega
    simp [reassembleFrom, hid, h64, hneq, hnz2]
  · intro h64
    simp [reassembleFrom, hid, h64]

/-- Claim C7 witness: a mismatching 64-character digest of all zeros (16 or
fewer non-zero characters) on the single chunk `[104, 105]` is accepted with
the fallback warning. -/
theorem reassemble_checksum_validation_witness :
    (Chunk.mk 0 [104, 105]
        "0000000000000000000000000000000000000000000000000000000000000000").id =
      Int.ofNat 0 ∧
    ("0000000000000000000000000000000000000000000000000000000000000000" : String).length = 64 ∧
    "0000000000000000000000000000000000000000000000000000000000000000" ≠ sha256hex [104, 105] ∧
    nonZeroCount "0000000000000000000000000000000000000000000000000000000000000000" ≤ 16 ∧
    reassembleFrom 0 [Chunk.mk 0 [104, 105]
        "0000000000000000000000000000000000000000000000000000000000000000"] =
      (match reassembleFrom (0 + 1) ([] : List Chunk) with
       | Except.ok (bs, warns) => Except.ok ((Chunk.mk 0 [104, 105]
           "0000000000000000000000000000000000000000000000000000000000000000").data ++ bs,
           ("Warning: chunk " ++ toString 0 ++
             " using fallback checksum (non-HTTPS upload)") :: warns)
       | Except.error e => Except.error e) := by
  refine ⟨rfl, by decide, ?_, by decide, ?_⟩
  · decide
  · exact (reassemble_checksum_validation 0
      (Chunk.mk 0 [104, 105]
        "0000000000000000000000000000000000000000000000000000000000000000")
      [] rfl).2.1 (by decide) (by decide) (by decide)

/-- Claim C7 counterexample: a mismatching digest that is not of the
fallback shape on any reading — 40 characters, all of them non-zero — is
accepted by `Reassemble` without an error and without a warning, because
the Go code validates only digests of length exactly 64. -/
theorem reassemble_short_checksum_counterexample :
    "abababababababababababababababababababab" ≠ sha256hex [104, 105] ∧
    ("abababababababababababababababababababab" : String).length = 40 ∧
    nonZeroCount "abababababababababababababababababababab" = 40 ∧
    reassembleFrom 0
      [Chunk.mk 0 [104, 105] "abababababababababababababababababababab"] =
      Except.ok ([104, 105], []) := by
  refine ⟨?_, by decide, by decide, ?_⟩
  · decide
  · decide

/-! ## Store invariant, restart, and cleanup -/

theorem all_replicate_false (n : Nat) :
    ((List.replicate n false).all (fun b => b) = true) ↔ n = 0 := by
  cases n <;> simp [List.replicate]

theorem sessionWF_new (path : String) (total size : Nat) (now : Int) :
    SessionWF { path := path, totalChunks := total, chunkSize := size,
                fileHash := "", receivedMap := List.replicate total false,
                createdAt := now, lastModified := now, completed := false } := by
  constructor
  · simp
  · constructor
    · intro hfalse
      simp at hfalse
    · rintro ⟨hne, hall⟩
      exact absurd ((all_replicate_false total).mp hall) hne

theorem storeReachable_wf (st : SessionStore) (h : StoreReachable st) :
    (∀ p ∈ st.sessions, SessionWF p.2) ∧ (∀ p ∈ st.disk, SessionWF p.2) := by
  induction h with
  | empty => simp
  | getOrCreate st path total size now hst ih =>
      rcases hlk : lookupAssoc (makeSessionID path) st.sessions with _ | s
      · constructor
        · intro p hp
          rcases mem_setAssoc _ _ _ p (by
              simpa [SessionStore.GetOrCreateSession, hlk] using hp) with h1 | h1
          · rw [h1]
            exact sessionWF_new path total size now
          · exact ih.1 p h1
        · intro p hp
          rcases mem_setAssoc _ _ _ p (by
              simpa [SessionStore.GetOrCreateSession, hlk] using hp) with h1 | h1
          · rw [h1]
            exact sessionWF_new path total size now
          · exact ih.2 p h1
      · have heq : (st.GetOrCreateSession path total size now).1 = st := by
          simp only [SessionStore.GetOrCreateSession, hlk]
          split <;> rfl
        rw [heq]
        exact ih
  | markReceived st path chunkID now hst ih =>
      rcases hlk : lookupAssoc (makeSessionID path) st.sessions with _ | sess
      · have heq : (st.MarkChunkReceived path chunkID now).1 = st := by
          simp [SessionStore.MarkChunkReceived, hlk]
        rw [heq]
        exact ih
      · by_cases hbad : chunkID < 0 ∨ (sess.totalChunks : Int) ≤ chunkID
        · have heq : (st.MarkChunkReceived path chunkID now).1 = st := by
            simp [SessionStore.MarkChunkReceived, hlk, if_pos hbad]
          rw [heq]
          exact ih
        · have hwfs : SessionWF sess :=
            ih.1 _ (mem_of_lookupAssoc _ _ _ hlk)
          have htot : sess.totalChunks ≠ 0 := by omega
          have hwf2 : SessionWF
              { sess with receivedMap := sess.receivedMap.set chunkID.toNat true
                          lastModified := now
                          completed := (sess.receivedMap.set chunkID.toNat true).all
                            (fun b => b) } := by
            constructor
            · simpa [List.length_set] using hwfs.1
            · constructor
              · intro hc
                exact ⟨htot, hc⟩
              · rintro ⟨_, hall⟩
                exact hall
          constructor
          · intro p hp
            rcases mem_setAssoc _ _ _ p (by
                simpa [SessionStore.MarkChunkReceived, hlk, if_neg hbad] using hp) with h1 | h1
            · rw [h1]
              exact hwf2
            · exact ih.1 p h1
          · intro p hp
            rcases mem_setAssoc _ _ _ p (by
                simpa [SessionStore.MarkChunkReceived, hlk, if_neg hbad] using hp) with h1 | h1
            · rw [h1]
              exact hwf2
            · exact ih.2 p h1
  | deleteSession st path hst ih =>
      constructor
      · intro p hp
        exact ih.1 p (mem_delAssoc _ _ _ hp)
      · intro p hp
        exact ih.2 p (mem_delAssoc _ _ _ hp)
  | cleanup st maxAge now hst ih =>
      constructor
      · intro p hp
        exact ih.1 p (mem_foldl_delAssoc _ _ _ hp)
      · intro p hp
        exact ih.2 p (mem_foldl_delAssoc _ _ _ hp)
  | restart st hst ih =>
      exact ⟨ih.2, ih.2⟩

/-- Claim C6 (amended): in every store state reachable through the store's
API, every held session (in memory and persisted) has a bitmap of length
equal to its expected chunk count, and its completed flag holds exactly when
the session expects at least one chunk and every bitmap entry is true.  The
original claim's unconditional "completed iff every bitmap entry is true"
fails for a zero-total session, whose empty bitmap is vacuously all-true
while its completed flag stays false. -/
theorem storeReachable_sessions_wellformed (st : SessionStore)
    (h : StoreReachable st) :
    ∀ p ∈ st.sessions, p.2.receivedMap.length = p.2.totalChunks ∧
      (p.2.completed = true ↔
        (p.2.totalChunks ≠ 0 ∧ p.2.receivedMap.all (fun b => b) = true)) := by
  intro p hp
  exact (storeReachable_wf st h).1 p hp

/-- Claim C6 witness: the two-chunk session created by `GetOrCreateSession`
on an empty store satisfies the invariant. -/
theorem storeReachable_sessions_wellformed_witness :
    (makeSessionID "p",
      UploadSession.mk "p" 2 1 "" (List.replicate 2 false) 0 0 false) ∈
      ((SessionStore.mk [] []).GetOrCreateSession "p" 2 1 0).1.sessions ∧
    ((UploadSession.mk "p" 2 1 "" (List.replicate 2 false) 0 0 false).receivedMap.length =
        (UploadSession.mk "p" 2 1 "" (List.replicate 2 false) 0 0 false).totalChunks ∧
      ((UploadSession.mk "p" 2 1 "" (List.replicate 2 false) 0 0 false).completed = true ↔
        ((UploadSession.mk "p" 2 1 "" (List.replicate 2 false) 0 0 false).totalChunks ≠ 0 ∧
          (UploadSession.mk "p" 2 1 "" (List.replicate 2 false) 0 0 false).receivedMap.all
            (fun b => b) = true))) := by
  have hmem : (makeSessionID "p",
      UploadSession.mk "p" 2 1 "" (List.replicate 2 false) 0 0 false) ∈
      ((SessionStore.mk [] []).GetOrCreateSession "p" 2 1 0).1.sessions := by
    show _ ∈ setAssoc (makeSessionID "p") _ []
    exact List.mem_singleton.mpr rfl
  exact ⟨hmem,
    storeReachable_sessions_wellformed _
      (StoreReachable.getOrCreate (SessionStore.mk [] []) "p" 2 1 0 StoreReachable.empty)
      _ hmem⟩

/-- Claim C6 counterexample: `GetOrCreateSession` with a requested total of
0 creates and holds a session whose completed flag is false although every
(vacuously: there are none) bitmap entry is true — the unconditional
"completed iff all received" invariant of the claim does not hold for it. -/
theorem zero_total_session_counterexample :
    ((SessionStore.mk [] []).GetOrCreateSession "p" 0 0 0).2 =
      Except.ok (UploadSession.mk "p" 0 0 "" [] 0 0 false) ∧
    ((SessionStore.mk [] []).GetOrCreateSession "p" 0 0 0).1.sessions =
      [(makeSessionID "p", UploadSession.mk "p" 0 0 "" [] 0 0 false)] ∧
    (UploadSession.mk "p" 0 0 "" [] 0 0 false).completed = false ∧
    (UploadSession.mk "p" 0 0 "" [] 0 0 false).receivedMap.all (fun b => b) = true :=
  ⟨rfl, rfl, rfl, rfl⟩

theorem storeReachable_disk_eq (st : SessionStore) (h : StoreReachable st) :
    st.disk = st.sessions := by
  induction h with
  | empty => rfl
  | getOrCreate st path total size now hst ih =>
      rcases hlk : lookupAssoc (makeSessionID path) st.sessions with _ | sess
      · simp [SessionStore.GetOrCreateSession, hlk, ih]
      · simp only [SessionStore.GetOrCreateSession, hlk]
        split <;> simpa using ih
  | markReceived st path chunkID now hst ih =>
      rcases hlk : lookupAssoc (makeSessionID path) st.sessions with _ | sess
      · simpa [SessionStore.MarkChunkReceived, hlk] using ih
      · by_cases hbad : chunkID < 0 ∨ (sess.totalChunks : Int) ≤ chunkID
        · simpa [SessionStore.MarkChunkReceived, hlk, if_pos hbad] using ih
        · simp [SessionStore.MarkChunkReceived, hlk, if_neg hbad, ih]
  | deleteSession st path hst ih =>
      simp [SessionStore.DeleteSession, ih]
  | cleanup st maxAge now hst ih =>
      simp [SessionStore.CleanupOldSessions, ih]
  | restart st hst ih => rfl

/-- Claim C8: rebuilding the store from its persisted state (what
`NewSessionStore` does on restart) reloads every persisted session, and
`GetMissingChunks` answers on the rebuilt store exactly as on the store
before the restart, for every path. -/
theorem restart_preserves_missingChunks (st : SessionStore)
    (h : StoreReachable st) (path : String) :
    (NewSessionStore st.disk).GetMissingChunks path = st.GetMissingChunks path ∧
    (∀ k : String, lookupAssoc k (NewSessionStore st.disk).sessions =
      lookupAssoc k st.disk) := by
  have hde := storeReachable_disk_eq st h
  constructor
  · simp [SessionStore.GetMissingChunks, NewSessionStore, hde]
  · intro k
    rfl

/-- Claim C8 witness: a three-chunk session with only chunk 0 received,
persisted by the store operations, reports the same missing chunks after a
simulated restart from the persisted files. -/
theorem restart_preserves_missingChunks_witness :
    (NewSessionStore
        ((((SessionStore.mk [] []).GetOrCreateSession "resume" 3 1 0).1.MarkChunkReceived
          "resume" 0 1).1.disk)).GetMissingChunks "resume" =
      ((((SessionStore.mk [] []).GetOrCreateSession "resume" 3 1 0).1.MarkChunkReceived
        "resume" 0 1).1.GetMissingChunks "resume") :=
  (restart_preserves_missingChunks _
    (StoreReachable.markReceived _ "resume" 0 1
      (StoreReachable.getOrCreate (SessionStore.mk [] []) "resume" 3 1 0
        StoreReachable.empty)) "resume").1

/-- Claim C9 (amended): `CleanupOldSessions` removes exactly the sessions
that are both incomplete and last modified strictly before `now - maxAge`,
never removes a completed session, and leaves every other session in place;
but it does not return the removed count to the caller — the Go function
returns only a (nil) error, and the count is observable only as a printed
log line, emitted only when at least one session was removed. -/
theorem cleanupOldSessions_spec (st : SessionStore) (maxAge now : Int)
    (hnd : (st.sessions.map Prod.fst).Nodup) :
    (∀ k s, lookupAssoc k st.sessions = some s →
      staleAt (now - maxAge) s = true →
      lookupAssoc k (st.CleanupOldSessions maxAge now).1.sessions = none) ∧
    (∀ k s, lookupAssoc k st.sessions = some s →
      staleAt (now - maxAge) s = false →
      lookupAssoc k (st.CleanupOldSessions maxAge now).1.sessions = some s) ∧
    (∀ k s, lookupAssoc k st.sessions = some s → s.completed = true →
      lookupAssoc k (st.CleanupOldSessions maxAge now).1.sessions = some s) ∧
    ((st.CleanupOldSessions maxAge now).2 =
      if (st.sessions.filter (fun p => staleAt (now - maxAge) p.2)).length = 0
      then none
      else some (st.sessions.filter (fun p => staleAt (now - maxAge) p.2)).length) := by
  have hmemdel : ∀ k : String,
      k ∈ (st.sessions.filter (fun p => staleAt (now - maxAge) p.2)).map Prod.fst ↔
      ∃ s2, (k, s2) ∈ st.sessions ∧ staleAt (now - maxAge) s2 = true := by
    intro k
    constructor
    · intro hk
      rcases List.mem_map.mp hk with ⟨p, hp, hfst⟩
      rcases List.mem_filter.mp hp with ⟨hmem, hstale⟩
      exact ⟨p.2, by rwa [show (k, p.2) = p from by rw [← hfst]], hstale⟩
    · rintro ⟨s2, hmem, hstale⟩
      exact List.mem_map.mpr ⟨(k, s2), List.mem_filter.mpr ⟨hmem, hstale⟩, rfl⟩
  refine ⟨?_, ?_, ?_, ?_⟩
  · intro k s hk hstale
    have hkdel : k ∈ (st.sessions.filter (fun p => staleAt (now - maxAge) p.2)).map Prod.fst :=
      (hmemdel k).mpr ⟨s, mem_of_lookupAssoc _ _ _ hk, hstale⟩
    simp only [SessionStore.CleanupOldSessions]
    rw [lookupAssoc_foldl_delAssoc, if_pos hkdel]
  · intro k s hk hstale
    have hkdel : ¬ k ∈ (st.sessions.filter (fun p => staleAt (now - maxAge) p.2)).map Prod.fst := by
      intro hk2
      rcases (hmemdel k).mp hk2 with ⟨s2, hmem2, hstale2⟩
      have : s2 = s := by
        have := lookupAssoc_of_mem_nodup k s2 st.sessions hnd hmem2
        rw [hk] at this
        exact (Option.some.injEq _ _).mp this.symm
      rw [this, hstale] at hstale2
      cases hstale2
    simp only [SessionStore.CleanupOldSessions]
    rw [lookupAssoc_foldl_delAssoc, if_neg hkdel, hk]
  · intro k s hk hcomp
    have hstale : staleAt (now - maxAge) s = false := by
      simp [staleAt, hcomp]
    have hkdel : ¬ k ∈ (st.sessions.filter (fun p => staleAt (now - maxAge) p.2)).map Prod.fst := by
      intro hk2
      rcases (hmemdel k).mp hk2 with ⟨s2, hmem2, hstale2⟩
      have : s2 = s := by
        have := lookupAssoc_of_mem_nodup k s2 st.sessions hnd hmem2
        rw [hk] at this
        exact (Option.some.injEq _ _).mp this.symm
      rw [this, hstale] at hstale2
      cases hstale2
    simp only [SessionStore.CleanupOldSessions]
    rw [lookupAssoc_foldl_delAssoc, if_neg hkdel, hk]
  · simp only [SessionStore.CleanupOldSessions, List.length_map]
    by_cases hl : (st.sessions.filter (fun p => staleAt (now - maxAge) p.2)).length = 0
    · simp [hl]
    · simp only [if_neg hl]
      rw [if_pos (by omega)]

/-- Claim C9 witness: with one stale incomplete session and one fresh one,
cleanup removes exactly the stale one, keeps the other, and its observable
output reports one removal. -/
theorem cleanupOldSessions_spec_witness :
    ((([(("a" : String), UploadSession.mk "f1" 2 1 "" [true, false] 0 0 false),
        (("b" : String), UploadSession.mk "f2" 2 1 "" [true, false] 0 100 false)]).map
        Prod.fst).Nodup) ∧
    lookupAssoc "a"
      ((SessionStore.mk
          [("a", UploadSession.mk "f1" 2 1 "" [true, false] 0 0 false),
           ("b", UploadSession.mk "f2" 2 1 "" [true, false] 0 100 false)]
          []).CleanupOldSessions 10 50).1.sessions = none ∧
    lookupAssoc "b"
      ((SessionStore.mk
          [("a", UploadSession.mk "f1" 2 1 "" [true, false] 0 0 false),
           ("b", UploadSession.mk "f2" 2 1 "" [true, false] 0 100 false)]
          []).CleanupOldSessions 10 50).1.sessions =
      some (UploadSession.mk "f2" 2 1 "" [true, false] 0 100 false) ∧
    ((SessionStore.mk
        [("a", UploadSession.mk "f1" 2 1 "" [true, false] 0 0 false),
         ("b", UploadSession.mk "f2" 2 1 "" [true, false] 0 100 false)]
        []).CleanupOldSessions 10 50).2 = some 1 := by
  refine ⟨by decide, ?_, ?_, ?_⟩
  · exact (cleanupOldSessions_spec _ 10 50 (by decide)).1 "a"
      (UploadSession.mk "f1" 2 1 "" [true, false] 0 0 false) (by decide) (by decide)
  · exact (cleanupOldSessions_spec _ 10 50 (by decide)).2.1 "b"
      (UploadSession.mk "f2" 2 1 "" [true, false] 0 100 false) (by decide) (by decide)
  · have h := (cleanupOldSessions_spec
      (SessionStore.mk
        [("a", UploadSession.mk "f1" 2 1 "" [true, false] 0 0 false),
         ("b", UploadSession.mk "f2" 2 1 "" [true, false] 0 100 false)]
        []) 10 50 (by decide)).2.2.2
    rw [h]
    decide

/-- Claim C9 counterexample: a cleanup call that removes zero sessions (the
only session is completed, though old) produces no removed count anywhere in
its observable output — the Go function returns only a nil error and prints
nothing — where the claim requires the call to return the count 0. -/
theorem cleanup_returns_no_count_counterexample :
    (SessionStore.mk
        [("k", UploadSession.mk "f" 2 1 "" [true, true] 0 0 true)]
        [("k", UploadSession.mk "f" 2 1 "" [true, true] 0 0 true)]).CleanupOldSessions
      10 1000 =
      (SessionStore.mk
        [("k", UploadSession.mk "f" 2 1 "" [true, true] 0 0 true)]
        [("k", UploadSession.mk "f" 2 1 "" [true, true] 0 0 true)], none) ∧
    staleAt (1000 - 10) (UploadSession.mk "f" 2 1 "" [true, true] 0 0 true) = false := by
  constructor
  · decide
  · decide

/-! ## Upload-orchestrator lemmas and claims -/

theorem hexEncode_length (bs : List Nat) : (hexEncode bs).length = 2 * bs.length := by
  induction bs with
  | nil => rfl
  | cons b rest ih =>
      simp only [hexEncode, String.length, List.flatMap_cons, byteToHex] at ih ⊢
      simp only [List.length_append, List.length_cons, List.length_nil] at ih ⊢
      omega

theorem sessionDirOf_eq_none_iff (p : String) :
    sessionDirOf p = none ↔ (utf8Bytes p).length < 8 := by
  by_cases h : (hexEncode (utf8Bytes p)).length < 16
  · have h2 : (utf8Bytes p).length < 8 := by
      rw [hexEncode_length] at h; omega
    simp [sessionDirOf, if_pos h, h2]
  · have h2 : ¬ (utf8Bytes p).length < 8 := by
      rw [hexEncode_length] at h; omega
    simp [sessionDirOf, if_neg h, h2]

theorem sessionDirOf_eq_some (p : String) (h : 8 ≤ (utf8Bytes p).length) :
    sessionDirOf p = some ((hexEncode (utf8Bytes p)).take 16) := by
  have h2 : ¬ (hexEncode (utf8Bytes p)).length < 16 := by
    rw [hexEncode_length]; omega
  simp [sessionDirOf, h2]

theorem readChunksFrom_flatten (staged : List ((String × Int) × List Nat))
    (dir : String) : ∀ (count i : Nat) (bytes : List Nat),
    readChunksFrom staged dir i count = Except.ok bytes →
    bytes = ((List.range' i count).map
      (fun j => (lookupAssoc (dir, Int.ofNat j) staged).getD [])).flatten := by
  intro count
  induction count with
  | zero =>
      intro i bytes h
      simp only [readChunksFrom] at h
      cases h
      simp
  | succ n ih =>
      intro i bytes h
      simp only [readChunksFrom] at h
      rcases hlk : lookupAssoc (dir, Int.ofNat i) staged with _ | b
      · rw [hlk] at h
        cases h
      · rw [hlk] at h
        rcases hrec : readChunksFrom staged dir (i + 1) n with e | rest
        · rw [hrec] at h
          cases h
        · rw [hrec] at h
          cases h
          rw [List.range'_succ i n 1]
          simp only [List.map_cons, List.flatten_cons, hlk, Option.getD_some]
          rw [ih (i + 1) rest hrec]

/-- Claim C2: when a request stages the final missing chunk and marking it
turns the session completed, `handleUpload` writes exactly one artifact —
the concatenation of the staged chunk files in ascending index order — to
the storage backend under the session's destination path, then deletes the
staging area and the session record; if reassembly fails (a staged chunk
cannot be read), it reports a fault and deletes nothing: the session record
and all staged chunks survive for a retry. -/
theorem handleUpload_completion_spec (st : ServerState) (req : ChunkData)
    (now : Int) (store1 : SessionStore) (sess : UploadSession)
    (h1 : st.store.GetOrCreateSession req.path req.total req.data.length now =
      (store1, Except.ok sess))
    (dir : String) (hdir : sessionDirOf req.path = some dir)
    (store2 : SessionStore)
    (h2 : store1.MarkChunkReceived req.path req.chunkID now =
      (store2, Except.ok ()))
    (s2 : UploadSession)
    (hlook : lookupAssoc (makeSessionID req.path) store2.sessions = some s2)
    (hcomp : s2.completed = true) :
    (∀ bytes, readChunksFrom (setAssoc (dir, req.chunkID) req.data st.staged)
        dir 0 req.total = Except.ok bytes →
      handleUpload st req now =
        ({ store := store2.DeleteSession req.path
           staged := (setAssoc (dir, req.chunkID) req.data st.staged).filter
             (fun q => decide (q.1.1 ≠ dir))
           storageFiles := setAssoc req.path bytes st.storageFiles },
         UploadResult.ok (req.chunkID + 1) req.total) ∧
      bytes = ((List.range req.total).map
        (fun j => (lookupAssoc (dir, Int.ofNat j)
          (setAssoc (dir, req.chunkID) req.data st.staged)).getD [])).flatten) ∧
    (∀ e, readChunksFrom (setAssoc (dir, req.chunkID) req.data st.staged)
        dir 0 req.total = Except.error e →
      handleUpload st req now =
        ({ store := store2
           staged := setAssoc (dir, req.chunkID) req.data st.staged
           storageFiles := st.storageFiles },
         UploadResult.fault ("reassembly failed: " ++ e))) := by
  constructor
  · intro bytes hread
    constructor
    · simp only [handleUpload, h1, hdir, h2, hlook, hcomp, reassembleFromDisk, hread,
        if_pos]
    · rw [List.range_eq_range']
      exact readChunksFrom_flatten _ dir req.total 0 bytes hread
  · intro e hread
    simp only [handleUpload, h1, hdir, h2, hlook, hcomp, reassembleFromDisk, hread,
      if_pos]

set_option maxRecDepth 1000000 in
/-- Claim C2 witness: a two-chunk upload with chunk 0 already staged and
received; submitting chunk 1 completes the session, writes the
concatenation `[10, 11, 20, 21]` to storage under the destination path, and
deletes the staging area and the session record. -/
theorem handleUpload_completion_spec_witness :
    handleUpload
      (ServerState.mk
        (SessionStore.mk
          [(makeSessionID "path/to/file",
            UploadSession.mk "path/to/file" 2 2 "" [true, false] 0 0 false)]
          [(makeSessionID "path/to/file",
            UploadSession.mk "path/to/file" 2 2 "" [true, false] 0 0 false)])
        [(("706174682f746f2f", (0 : Int)), [10, 11])]
        [])
      (ChunkData.mk "path/to/file" 1 [20, 21] "" 2) 5 =
      ({ store := (SessionStore.mk
            [(makeSessionID "path/to/file",
              UploadSession.mk "path/to/file" 2 2 "" [true, true] 0 5 true)]
            [(makeSessionID "path/to/file",
              UploadSession.mk "path/to/file" 2 2 "" [true, true] 0 5 true)]).DeleteSession
            "path/to/file"
         staged := (setAssoc (("706174682f746f2f" : String), (1 : Int)) [20, 21]
            [(("706174682f746f2f", (0 : Int)), [10, 11])]).filter
            (fun q => decide (q.1.1 ≠ "706174682f746f2f"))
         storageFiles := setAssoc "path/to/file" [10, 11, 20, 21] [] },
       UploadResult.ok (1 + 1) 2) := by
  exact ((handleUpload_completion_spec
    (ServerState.mk
      (SessionStore.mk
        [(makeSessionID "path/to/file",
          UploadSession.mk "path/to/file" 2 2 "" [true, false] 0 0 false)]
        [(makeSessionID "path/to/file",
          UploadSession.mk "path/to/file" 2 2 "" [true, false] 0 0 false)])
      [(("706174682f746f2f", (0 : Int)), [10, 11])]
      [])
    (ChunkData.mk "path/to/file" 1 [20, 21] "" 2) 5
    (SessionStore.mk
      [(makeSessionID "path/to/file",
        UploadSession.mk "path/to/file" 2 2 "" [true, false] 0 0 false)]
      [(makeSessionID "path/to/file",
        UploadSession.mk "path/to/file" 2 2 "" [true, false] 0 0 false)])
    (UploadSession.mk "path/to/file" 2 2 "" [true, false] 0 0 false)
    (by decide)
    "706174682f746f2f" (by decide)
    (SessionStore.mk
      [(makeSessionID "path/to/file",
        UploadSession.mk "path/to/file" 2 2 "" [true, true] 0 5 true)]
      [(makeSessionID "path/to/file",
        UploadSession.mk "path/to/file" 2 2 "" [true, true] 0 5 true)])
    (by decide)
    (UploadSession.mk "path/to/file" 2 2 "" [true, true] 0 5 true)
    (by decide) rfl).1 [10, 11, 20, 21] (by decide)).1

/-- Claim C10 (amended): a request whose destination path is at least 8
UTF-8 bytes never makes `handleUpload` panic; for a shorter path, if
session lookup or creation succeeds the handler reaches the staging-
directory derivation `sessionHash[:16]` and fails with a slice-bounds
panic, but if `GetOrCreateSession` fails first (for example, a chunk-count
mismatch against an existing session — reachable because the first request
for a short path persists the session before panicking) the handler returns
that typed fault without reaching the derivation. -/
theorem handleUpload_short_path_spec (st : ServerState) (req : ChunkData)
    (now : Int) :
    (8 ≤ (utf8Bytes req.path).length →
      ∀ m, (handleUpload st req now).2 ≠ UploadResult.crash m) ∧
    ((utf8Bytes req.path).length < 8 →
      ∀ store1 sess,
        st.store.GetOrCreateSession req.path req.total req.data.length now =
          (store1, Except.ok sess) →
        handleUpload st req now =
          ({ st with store := store1 },
           UploadResult.crash "slice bounds out of range")) ∧
    ((utf8Bytes req.path).length < 8 →
      ∀ store1 e,
        st.store.GetOrCreateSession req.path req.total req.data.length now =
          (store1, Except.error e) →
        handleUpload st req now =
          ({ st with store := store1 },
           UploadResult.fault ("session error: " ++ e))) := by
  refine ⟨?_, ?_, ?_⟩
  · intro hlen m
    have hdir := sessionDirOf_eq_some req.path hlen
    rcases hg : st.store.GetOrCreateSession req.path req.total req.data.length now
      with ⟨store1, r1⟩
    cases r1 with
    | error e =>
        simp [handleUpload, hg]
    | ok sess =>
        rcases hm : store1.MarkChunkReceived req.path req.chunkID now with ⟨store2, r2⟩
        cases r2 with
        | error e =>
            simp [handleUpload, hg, hdir, hm]
        | ok u =>
            cases u
            simp only [handleUpload, hg, hdir, hm]
            split
            · split <;> simp
            · simp
  · intro hlen store1 sess hg
    have hdir : sessionDirOf req.path = none := (sessionDirOf_eq_none_iff req.path).mpr hlen
    simp [handleUpload, hg, hdir]
  · intro hlen store1 e hg
    simp [handleUpload, hg]

/-- Claim C10 witness: for the 12-byte path `"path/of/data"` on an empty
server state, the upload of the only chunk is handled without a panic. -/
theorem handleUpload_short_path_spec_witness :
    8 ≤ (utf8Bytes "path/of/data").length ∧
    ∀ m, (handleUpload (ServerState.mk (SessionStore.mk [] []) [] [])
        (ChunkData.mk "path/of/data" 0 [7] "" 1) 0).2 ≠ UploadResult.crash m :=
  ⟨by decide,
   (handleUpload_short_path_spec (ServerState.mk (SessionStore.mk [] []) [] [])
      (ChunkData.mk "path/of/data" 0 [7] "" 1) 0).1 (by decide)⟩

set_option maxRecDepth 1000000 in
/-- Claim C10 counterexample: a request with the 1-byte path `"p"` against
an existing session with a different total returns the typed chunk-count-
mismatch fault — it does not panic — refuting the claim that every upload
request with a sub-8-byte path fails with a slice-bounds panic rather than
a typed fault. -/
theorem short_path_typed_fault_counterexample :
    handleUpload
      (ServerState.mk
        (SessionStore.mk
          [(makeSessionID "p",
            UploadSession.mk "p" 5 1 "" (List.replicate 5 false) 0 0 false)]
          [(makeSessionID "p",
            UploadSession.mk "p" 5 1 "" (List.replicate 5 false) 0 0 false)])
        [] [])
      (ChunkData.mk "p" 0 [7] "" 7) 0 =
      (ServerState.mk
        (SessionStore.mk
          [(makeSessionID "p",
            UploadSession.mk "p" 5 1 "" (List.replicate 5 false) 0 0 false)]
          [(makeSessionID "p",
            UploadSession.mk "p" 5 1 "" (List.replicate 5 false) 0 0 false)])
        [] [],
       UploadResult.fault
         "session error: chunk count mismatch: session has 5, request has 7") ∧
    (utf8Bytes "p").length < 8 := by
  constructor
  · decide
  · decide


end GoFlux
